import Mathlib

/-!
Verification of the bgg-climbers repository.

The repository contains several Go program variants that compare dated CSV
ranking snapshots of board games and emit a sorted "climb" report.  This file
gives a shallow embedding of the relevant parts of each variant and settles a
list of claims about them.

Embedding conventions:
  * Go `float64` arithmetic is modelled exactly over `ℚ` (the idealised real
    semantics of the arithmetic in the source); `math.Log` is modelled by
    `Real.log` over `ℝ`.
  * Go `int` is modelled by unbounded `Int` (no 64-bit overflow is involved in
    any claim).
  * Division by zero follows the Lean convention `x / 0 = 0`.
  * Go maps are modelled by insertion-ordered association lists with
    update-in-place semantics; Go's `sort.Sort` is modelled by
    `List.insertionSort` (the library only guarantees sortedness with respect
    to the comparator, which insertion sort provides).
  * Fallible Go calls return `Option`; a call whose error is discarded with
    `_` is modelled by `Option.getD` with the Go zero value.

Namespaces: `Multi` is the multi-snapshot program (first program of main.go),
`LogDiff` the unsorted two-file log-ratio diff (second program of main.go),
`Displace` the two-file displacement variant (first program of part_001),
`LogSorted` the sorted two-file log-ratio variant (second program of part_001).
-/

/-- Numeric value of a list of decimal digit characters, most significant
digit first. -/
def digitsToNat (l : List Char) : Nat :=
  l.foldl (fun a c => a * 10 + (c.toNat - 48)) 0

/-- Parses an optional sign followed by one or more decimal digits, the whole
input being consumed.  This is the shared core of the Go `strconv.Atoi` model
and of the exponent part of the `strconv.ParseFloat` model. -/
def parseSignedDigits (l : List Char) : Option Int :=
  match l with
  | [] => none
  | c :: rest =>
    let signed : Int × List Char :=
      if c = '-' then (-1, rest) else if c = '+' then (1, rest) else (1, c :: rest)
    if signed.2 = [] then none
    else if signed.2.all Char.isDigit then some (signed.1 * (digitsToNat signed.2 : Int))
    else none

/-- Model of Go `strconv.Atoi`: an optional sign followed by decimal digits.
The embedding uses unbounded `Int`, so 64-bit range errors are not modelled. -/
def goAtoi (s : String) : Option Int :=
  parseSignedDigits s.toList

/-- Result of Go `strconv.Atoi` when the error is discarded: 0 on failure. -/
def atoiOr0 (s : String) : Int :=
  (goAtoi s).getD 0

/-- Parses the mantissa of a decimal float: `digits`, `digits.`, `.digits` or
`digits.digits`, returning its exact value and the unconsumed remainder. -/
def parseMantissa (l : List Char) : Option (ℚ × List Char) :=
  let intPart := l.takeWhile Char.isDigit
  let r1 := l.dropWhile Char.isDigit
  match r1 with
  | '.' :: r2 =>
    let fracPart := r2.takeWhile Char.isDigit
    let r3 := r2.dropWhile Char.isDigit
    if intPart = [] ∧ fracPart = [] then none
    else some ((digitsToNat intPart : ℚ) + (digitsToNat fracPart : ℚ) / (10 : ℚ) ^ fracPart.length, r3)
  | _ => if intPart = [] then none else some ((digitsToNat intPart : ℚ), r1)

/-- Model of Go `strconv.ParseFloat` on the decimal grammar
`[sign] mantissa [(e|E) [sign] digits]`, with the exact rational value instead
of the nearest float64.  The special forms accepted by Go (`Inf`, `NaN`,
hexadecimal floats, digit-separating underscores) are not modelled; no claim
depends on them. -/
def goParseFloat (s : String) : Option ℚ :=
  match s.toList with
  | [] => none
  | c :: rest =>
    let neg : Bool := c = '-'
    let l1 : List Char := if c = '-' ∨ c = '+' then rest else c :: rest
    match parseMantissa l1 with
    | none => none
    | some (m, r) =>
      let signedM : ℚ := if neg then -m else m
      match r with
      | [] => some signedM
      | e :: r2 =>
        if e = 'e' ∨ e = 'E' then
          match parseSignedDigits r2 with
          | none => none
          | some ex => some (signedM * (10 : ℚ) ^ ex)
        else none

/-- Result of Go `strconv.ParseFloat` when the error is discarded: 0 on
failure. -/
def parseFloatOr0 (s : String) : ℚ :=
  (goParseFloat s).getD 0

/-- The fallback-rank substitution that every variant applies inline before
using a rank arithmetically: rank 0 (the unranked sentinel) is replaced by the
caller-supplied fallback. -/
def fallbackRank (rank fallback : Int) : Int :=
  if rank = 0 then fallback else rank

/-- Lookup in an insertion-ordered association list (the Go map model). -/
def alistLookup {κ α : Type} [DecidableEq κ] (m : List (κ × α)) (k : κ) : Option α :=
  match m with
  | [] => none
  | (k', v) :: rest => if k' = k then some v else alistLookup rest k

/-- Insertion into an insertion-ordered association list: updates in place if
the key is present, otherwise appends at the end (the Go map model). -/
def alistInsert {κ α : Type} [DecidableEq κ] (m : List (κ × α)) (k : κ) (v : α) : List (κ × α) :=
  match m with
  | [] => [(k, v)]
  | (k', v') :: rest => if k' = k then (k, v) :: rest else (k', v') :: alistInsert rest k v

/-- The inclusive integer interval `[a, b]` as a list, modelling the Go loop
`for r := a; r <= b; r++`. -/
def intRange (a b : Int) : List Int :=
  (List.range (b + 1 - a).toNat).map (fun i : Nat => a + (i : Int))

namespace Multi

/-- A record in a bgg-ranking-historicals file (multi-snapshot variant): the
bayes-average column is parsed to a number, the average and users-rated
columns are carried as raw strings. -/
structure Record where
  ID : String
  Name : String
  Year : String
  Rank : Int
  Average : String
  BayesAverage : ℚ
  UsersRated : String
  URL : String
  Thumbnail : String
deriving DecidableEq

/-- The Go zero value of `Record`. -/
def zeroRecord : Record :=
  ⟨"", "", "", 0, "", 0, "", "", ""⟩

instance : Inhabited Record := ⟨zeroRecord⟩

/-- The minimum ratio the new ratings need to account for (`0.05`). -/
def MinNewRatingRatio : ℚ := 5 / 100

/-- Embedding of `NewRatingAverage` from the multi-snapshot variant: parse the
users-rated and average strings of both records (0 on failure), suppress the
estimate when there are not enough new ratings, shortcut when the averages are
equal and otherwise clamp the weighted delta to `[1, 10]`. -/
def NewRatingAverage (oldRecord newRecord : Record) : Option ℚ :=
  let oldRatings := parseFloatOr0 oldRecord.UsersRated
  let oldAverage := parseFloatOr0 oldRecord.Average
  let newRatings := parseFloatOr0 newRecord.UsersRated
  let newAverage := parseFloatOr0 newRecord.Average
  if newRatings ≤ oldRatings ∨ (newRatings - oldRatings) / newRatings < MinNewRatingRatio then
    none
  else if oldAverage = newAverage then
    some newAverage
  else
    some (max 1 (min 10 ((newAverage * newRatings - oldAverage * oldRatings) / (newRatings - oldRatings))))

/-- Embedding of `ClimbScoreRank`: the ratio of rank movement. -/
def ClimbScoreRank (oldRank newRank : Int) : ℚ :=
  (oldRank : ℚ) / (newRank : ℚ)

/-- Embedding of `ClimbScoreBayes`: the difference between two averages. -/
def ClimbScoreBayes (oldBayes newBayes : ℚ) : ℚ :=
  newBayes - oldBayes

/-- The numeric argument of the `%.2f%%` format in `ClimbScorePercString`: the
score normalised by reciprocal when above 1, converted to a percentage. -/
def ClimbScorePercNumber (climbScore : ℚ) : ℚ :=
  let perc := if climbScore > 1 then 1 / climbScore else climbScore
  (1 - perc) * 100

/-- Embedding of `ParseRecord` (multi-snapshot variant): error when fewer than
9 fields are present, when the rank is not a valid base-10 integer or when the
bayes average is not a valid decimal; on success all 9 fields populate the
record, the average and users-rated columns staying raw strings. -/
def ParseRecord (record : List String) : Option Record :=
  if record.length ≤ 8 then none
  else
    match goAtoi (record.getD 3 "") with
    | none => none
    | some rank =>
      match goParseFloat (record.getD 5 "") with
      | none => none
      | some bayes =>
        some ⟨record.getD 0 "", record.getD 1 "", record.getD 2 "", rank,
          record.getD 4 "", bayes, record.getD 6 "", record.getD 7 "", record.getD 8 ""⟩

/-- A `GameRecord` is a record with the date of its source snapshot. -/
structure GameRecord where
  Record : Record
  Date : Int
deriving DecidableEq

instance : Inhabited GameRecord := ⟨⟨zeroRecord, 0⟩⟩

/-- A `Game` is a collection of GameRecords, newest first. -/
structure Game where
  Records : List GameRecord
deriving DecidableEq

instance : Inhabited Game := ⟨⟨[]⟩⟩

/-- The rank ranking mode. -/
def ModeRank : String := "rank"

/-- The bayes ranking mode. -/
def ModeBayes : String := "bayes"

/-- Embedding of the standalone `ClimbScore`: dispatch on the mode string.
The Go code panics on any other mode; `main` validates the mode beforehand,
so the panic branch is modelled by a junk value. -/
def ClimbScore (old new : GameRecord) (mode : String) : ℚ :=
  if mode = ModeRank then ClimbScoreRank old.Record.Rank new.Record.Rank
  else if mode = ModeBayes then
    ClimbScoreBayes old.Record.BayesAverage new.Record.BayesAverage
  else 0

/-- Embedding of the method `Game.ClimbScore`: the score of the most recent
period.  The Go code indexes `Records[1]` and `Records[0]` directly (and would
panic on a shorter list); the total model uses a default, and every caller
guards with the more-than-one-record filter. -/
def Game.ClimbScore (g : Game) (mode : String) : ℚ :=
  Multi.ClimbScore (g.Records.getD 1 default) (g.Records.getD 0 default) mode

/-- Embedding of the method `Game.ClimbScoreRank` (the `ByRank` comparator
key). -/
def Game.ClimbScoreRank (g : Game) : ℚ :=
  Multi.ClimbScoreRank (g.Records.getD 1 default).Record.Rank
    (g.Records.getD 0 default).Record.Rank

/-- Embedding of the method `Game.ClimbScoreBayes` (the `ByBayes` comparator
key). -/
def Game.ClimbScoreBayes (g : Game) : ℚ :=
  Multi.ClimbScoreBayes (g.Records.getD 1 default).Record.BayesAverage
    (g.Records.getD 0 default).Record.BayesAverage

/-- A parsed snapshot file: its date (parsed from the filename) and records.
The `Path` and `MaxRank` fields of the Go struct are never read by this
variant's pipeline and are omitted. -/
structure File where
  Date : Int
  Records : List Record
deriving DecidableEq

/-- The first games-map loop of `main`: seed the map from the ranked records
of the latest file, one single-record game per identifier. -/
def seedGames (latest : File) : List (String × Game) :=
  latest.Records.foldl
    (fun m record =>
      if record.Rank > 0 then alistInsert m record.ID ⟨[⟨record, latest.Date⟩]⟩ else m)
    []

/-- The second games-map loop of `main` for one older file: append a dated
record to each already-present identifier whose record in this file is
ranked. -/
def addOlderFile (m : List (String × Game)) (f : File) : List (String × Game) :=
  f.Records.foldl
    (fun m record =>
      match alistLookup m record.ID with
      | some game =>
        if record.Rank > 0 then
          alistInsert m record.ID ⟨game.Records ++ [⟨record, f.Date⟩]⟩
        else m
      | none => m)
    m

/-- The games map after both loops of `main`: seeded from the latest file,
then extended by each older file in turn. -/
def buildGamesMap (latest : File) (older : List File) : List (String × Game) :=
  older.foldl addOlderFile (seedGames latest)

/-- The games slice built from the map values: only games with more than one
record whose latest users-rated count (0 if unparseable) meets the minimum. -/
def gamesList (latest : File) (older : List File) (minRatings : Int) : List Game :=
  ((buildGamesMap latest older).map Prod.snd).filter
    (fun g => decide (1 < g.Records.length) &&
      decide (minRatings ≤ atoiOr0 (g.Records.getD 0 default).Record.UsersRated))

/-- The mode-selected descending sort of `main`, modelling
`sort.Sort(sort.Reverse(sortBy))`: `sort.Sort` guarantees exactly that the
result is ordered by the comparator, which insertion sort provides.  The
reversed comparator of `ByRank`/`ByBayes` orders by descending score. -/
def sortGames (mode : String) (games : List Game) : List Game :=
  if mode = ModeRank then
    List.insertionSort (fun a b => Game.ClimbScoreRank b ≤ Game.ClimbScoreRank a) games
  else if mode = ModeBayes then
    List.insertionSort (fun a b => Game.ClimbScoreBayes b ≤ Game.ClimbScoreBayes a) games
  else games

/-- Verification invariant of the games map during its construction: every
stored game is headed by a ranked record of the latest file carrying the
latest date and matching the map key, every stored record is ranked, and the
record dates are non-increasing (newest first) and bounded below by `dlow`,
the date of the most recently processed file. -/
def MapInv (latest : File) (dlow : Int) (m : List (String × Game)) : Prop :=
  ∀ p ∈ m,
    (∃ r ∈ latest.Records, 0 < r.Rank ∧ r.ID = p.1 ∧
      (p.2).Records.head? = some ⟨r, latest.Date⟩) ∧
    (∀ gr ∈ (p.2).Records, 0 < gr.Record.Rank ∧ dlow ≤ gr.Date) ∧
    List.Chain' (fun a b => b.Date ≤ a.Date) (p.2).Records

end Multi

namespace Displace

/-- A record in the displacement (two-snapshot) variant: all numeric-looking
columns except the rank are carried as raw strings. -/
structure Record where
  ID : String
  Name : String
  Year : String
  Rank : Int
  Average : String
  BayesAverage : String
  UsersRated : String
  URL : String
  Thumbnail : String
deriving DecidableEq

/-- The Go zero value of `Record`. -/
def zeroRecord : Record :=
  ⟨"", "", "", 0, "", "", "", "", ""⟩

/-- A game joins the old and new records of one identifier and caches its
climb score. -/
structure Game where
  Old : Record
  New : Record
  ClimbScore : ℚ
deriving DecidableEq

/-- The Go zero value of `Game`, returned by a missing-key map access. -/
def zeroGame : Game :=
  ⟨zeroRecord, zeroRecord, 0⟩

instance : Inhabited Game := ⟨zeroGame⟩

/-- Embedding of `Game.CalcClimbScore` (displacement variant): the ratio of
the two ranks after inline fallback substitution on each side. -/
def Game.CalcClimbScore (g : Game) (fallbackRank : Int) : ℚ :=
  let oldRank := if g.Old.Rank = 0 then fallbackRank else g.Old.Rank
  let newRank := if g.New.Rank = 0 then fallbackRank else g.New.Rank
  (oldRank : ℚ) / (newRank : ℚ)

/-- The numeric argument of the `%.2f%%` format in `Game.RatingPercString`:
this variant renders `(score - 1) * 100` without any reciprocal
normalisation. -/
def Game.RatingPercNumber (g : Game) : ℚ :=
  (g.ClimbScore - 1) * 100

/-- Embedding of `ParseRecord` (displacement variant): error when fewer than 9
fields are present or when the rank is not a valid base-10 integer; on success
all 9 fields populate the record, all non-rank columns staying raw strings. -/
def ParseRecord (record : List String) : Option Record :=
  if record.length ≤ 8 then none
  else
    match goAtoi (record.getD 3 "") with
    | none => none
    | some rank =>
      some ⟨record.getD 0 "", record.getD 1 "", record.getD 2 "", rank,
        record.getD 4 "", record.getD 5 "", record.getD 6 "", record.getD 7 "", record.getD 8 ""⟩

/-- The score-setting pass of `main`: every joined game gets its climb score
computed with fallback `maxRank / 2`.  The games are taken in the (arbitrary)
map iteration order, which the model leaves as the given list order. -/
def scoredGames (games : List Game) (maxRank : Int) : List Game :=
  games.map (fun g => ⟨g.Old, g.New, Game.CalcClimbScore g (maxRank / 2)⟩)

/-- The by-old-rank index built in the same pass: scored games with a nonzero
old rank, keyed by their old rank. -/
def gamesByOldRank (games : List Game) (maxRank : Int) : List (Int × Game) :=
  (scoredGames games maxRank).foldl
    (fun m g => if g.Old.Rank ≠ 0 then alistInsert m g.Old.Rank g else m) []

/-- The games slice after `sort.Sort(sort.Reverse(gamesSlice))`: descending by
climb score. -/
def sortedSlice (games : List Game) (maxRank : Int) : List Game :=
  List.insertionSort (fun a b => b.ClimbScore ≤ a.ClimbScore) (scoredGames games maxRank)

/-- The two continue-filters of the output loop: drop games that gained or
lost their rank, and drop games whose new users-rated string fails to parse
or parses below 100 (note the logical OR in the second condition). -/
def outputKeep (g : Game) : Bool :=
  !(decide (g.Old.Rank = 0) || decide (g.New.Rank = 0)) &&
    !((goAtoi g.New.UsersRated).isNone || decide (atoiOr0 g.New.UsersRated < 100))

/-- The sequence of games actually written by the output loop, in order. -/
def outputList (games : List Game) (maxRank : Int) : List Game :=
  (sortedSlice games maxRank).filter outputKeep

/-- The displaced-games collection for one game `g`: scan every old-rank
position from `g.New.Rank + 1` up to `g.Old.Rank`, look the position up in the
by-old-rank index (Go map access yields the zero value on a miss), collect the
games pushed down, and sort them descending by new users-rated count. -/
def displacedFor (g : Game) (byOldRank : List (Int × Game)) : List Game :=
  let collected :=
    (intRange (g.New.Rank + 1) g.Old.Rank).foldl
      (fun acc r =>
        let og := (alistLookup byOldRank r).getD zeroGame
        if og.New.Rank ≠ 0 ∧ g.New.Rank < og.New.Rank ∧ og.Old.Rank < og.New.Rank then
          acc ++ [og]
        else acc)
      []
  List.insertionSort (fun a b => atoiOr0 b.New.UsersRated ≤ atoiOr0 a.New.UsersRated) collected

end Displace

namespace LogSorted

/-- A record in the sorted log-ratio variant. -/
structure Record where
  ID : String
  Name : String
  Year : String
  Rank : Int
  Average : String
  BayesAverage : String
  UsersRated : String
  URL : String
  Thumbnail : String
deriving DecidableEq

/-- A game joins the old and new records of one identifier and caches its
climb score. -/
structure Game where
  Old : Record
  New : Record
  ClimbScore : ℝ

/-- Embedding of `Game.CalcClimbScore` (sorted log-ratio variant): the
difference of logarithms of the two ranks after inline fallback substitution
on each side. -/
noncomputable def Game.CalcClimbScore (g : Game) (fallbackRank : Int) : ℝ :=
  let oldRank := if g.Old.Rank = 0 then fallbackRank else g.Old.Rank
  let newRank := if g.New.Rank = 0 then fallbackRank else g.New.Rank
  Real.log (oldRank : ℝ) - Real.log (newRank : ℝ)

end LogSorted

namespace LogDiff

/-- A record in the unsorted log-ratio diff variant (second program of
main.go). -/
structure Record where
  ID : String
  Name : String
  Year : String
  Rank : Int
  Average : String
  BayesAverage : String
  UsersRated : String
  URL : String
  Thumbnail : String
deriving DecidableEq

/-- The Go zero value of `Record`. -/
def zeroRecord : Record :=
  ⟨"", "", "", 0, "", "", "", "", ""⟩

/-- A game joins the old and new records of one identifier. -/
structure Game where
  Old : Record
  New : Record
deriving DecidableEq

/-- The Go zero value of `Game`, returned by a missing-key map access. -/
def zeroGame : Game :=
  ⟨zeroRecord, zeroRecord⟩

/-- The numeric value written in the last CSV column by `Game.ToCSVRecord` of
the unsorted log-ratio variant: the difference of logarithms of the two ranks
after inline fallback substitution on each side. -/
noncomputable def Game.ClimbScoreValue (g : Game) (fallbackRank : Int) : ℝ :=
  let oldRank := if g.Old.Rank = 0 then fallbackRank else g.Old.Rank
  let newRank := if g.New.Rank = 0 then fallbackRank else g.New.Rank
  Real.log (oldRank : ℝ) - Real.log (newRank : ℝ)

/-- The maximum rank tracked across both parse loops of `main`, starting from
0. -/
def maxRankOf (oldRecords newRecords : List Record) : Int :=
  (oldRecords ++ newRecords).foldl (fun mr r => if r.Rank > mr then r.Rank else mr) 0

/-- The old-file parse loop of `main`: each parsed record is stored on the
`Old` side of its identifier's game (Go map access yields the zero value for a
new identifier). -/
def addOldRecords (m : List (String × Game)) (records : List Record) : List (String × Game) :=
  records.foldl
    (fun m record =>
      let g := (alistLookup m record.ID).getD zeroGame
      alistInsert m record.ID ⟨record, g.New⟩)
    m

/-- The new-file parse loop of `main`: each parsed record is stored on the
`New` side of its identifier's game. -/
def addNewRecords (m : List (String × Game)) (records : List Record) : List (String × Game) :=
  records.foldl
    (fun m record =>
      let g := (alistLookup m record.ID).getD zeroGame
      alistInsert m record.ID ⟨g.Old, record⟩)
    m

/-- The games map after both parse loops of `main`. -/
def buildGames (oldRecords newRecords : List Record) : List (String × Game) :=
  addNewRecords (addOldRecords [] oldRecords) newRecords

/-- The sequence of games written by the output loop of `main`.  This variant
applies no sort: the games are written in Go map iteration order, which is
unspecified (randomised); the model fixes the insertion order, one of the
orders a run can produce. -/
def gamesInMapOrder (oldRecords newRecords : List Record) : List Game :=
  (buildGames oldRecords newRecords).map Prod.snd

end LogDiff

/-- Modelled from the spec's words: the percentage-of-improvement formula
`(1 - min(score, 1/score)) * 100` that the spec asserts every
percentage-rendering variant uses. -/
def specPercOfImprovement (s : ℚ) : ℚ :=
  (1 - min s (1 / s)) * 100

/-- Every pair in an updated association list is the inserted pair or an old
pair. -/
theorem mem_alistInsert {κ α : Type} [DecidableEq κ] {m : List (κ × α)} {k : κ} {v : α}
    {p : κ × α} (h : p ∈ alistInsert m k v) : p = (k, v) ∨ p ∈ m := by
  induction m with
  | nil => simpa [alistInsert] using h
  | cons q rest ih =>
    obtain ⟨k', v'⟩ := q
    rw [alistInsert] at h
    by_cases hk : k' = k
    · rw [if_pos hk] at h
      rcases List.mem_cons.1 h with h1 | h1
      · exact Or.inl h1
      · exact Or.inr (List.mem_cons_of_mem _ h1)
    · rw [if_neg hk] at h
      rcases List.mem_cons.1 h with h1 | h1
      · exact Or.inr (h1 ▸ List.mem_cons_self _ _)
      · rcases ih h1 with h2 | h2
        · exact Or.inl h2
        · exact Or.inr (List.mem_cons_of_mem _ h2)

/-- A successful association-list lookup returns a stored pair. -/
theorem alistLookup_mem {κ α : Type} [DecidableEq κ] {m : List (κ × α)} {k : κ} {v : α}
    (h : alistLookup m k = some v) : (k, v) ∈ m := by
  induction m with
  | nil => simp [alistLookup] at h
  | cons q rest ih =>
    obtain ⟨k', v'⟩ := q
    rw [alistLookup] at h
    by_cases hk : k' = k
    · rw [if_pos hk] at h
      obtain rfl : v' = v := by simpa using h
      exact hk ▸ List.mem_cons_self _ _
    · rw [if_neg hk] at h
      exact List.mem_cons_of_mem _ (ih h)

/-- Members of `intRange a b` lie in the interval `[a, b]`. -/
theorem mem_intRange {a b x : Int} (h : x ∈ intRange a b) : a ≤ x ∧ x ≤ b := by
  simp only [intRange, List.mem_map, List.mem_range] at h
  obtain ⟨i, hi, rfl⟩ := h
  omega

/-- C7: the by-rank climb score is symmetric under swap-and-invert whenever
neither rank is 0, both for the standalone `ClimbScoreRank` of the
multi-snapshot variant and for `Game.CalcClimbScore` of the displacement
variant (where the fallback is then irrelevant). -/
theorem C7_climb_score_swap_invert :
    (∀ oldRank newRank : Int, oldRank ≠ 0 → newRank ≠ 0 →
      Multi.ClimbScoreRank oldRank newRank = 1 / Multi.ClimbScoreRank newRank oldRank) ∧
    (∀ (g : Displace.Game) (f : Int), g.Old.Rank ≠ 0 → g.New.Rank ≠ 0 →
      Displace.Game.CalcClimbScore g f =
        1 / Displace.Game.CalcClimbScore ⟨g.New, g.Old, g.ClimbScore⟩ f) := by
  constructor
  · intro o n _ _
    rw [Multi.ClimbScoreRank, Multi.ClimbScoreRank, one_div_div]
  · intro g f ho hn
    simp only [Displace.Game.CalcClimbScore, if_neg ho, if_neg hn]
    rw [one_div_div]

/-- Witness for C7 at concrete ranks 6 and 3. -/
theorem C7_climb_score_swap_invert_witness :
    Multi.ClimbScoreRank 6 3 = 1 / Multi.ClimbScoreRank 3 6 ∧
    Displace.Game.CalcClimbScore ⟨⟨"", "", "", 5, "", "", "", "", ""⟩, ⟨"", "", "", 2, "", "", "", "", ""⟩, 0⟩ 7 =
      1 / Displace.Game.CalcClimbScore ⟨⟨"", "", "", 2, "", "", "", "", ""⟩, ⟨"", "", "", 5, "", "", "", "", ""⟩, 0⟩ 7 :=
  ⟨C7_climb_score_swap_invert.1 6 3 (by decide) (by decide),
   C7_climb_score_swap_invert.2 ⟨⟨"", "", "", 5, "", "", "", "", ""⟩, ⟨"", "", "", 2, "", "", "", "", ""⟩, 0⟩ 7
     (by decide) (by decide)⟩

/-- C8 (amended): the fallback substitution yields the fallback when the rank
is 0 and the original rank otherwise, so it equals the fallback exactly when
the rank is 0 provided the fallback differs from the rank (when the fallback
happens to coincide with a nonzero rank the claimed equivalence fails); the
substitution is applied to each side before the ratio computation of the
displacement variant and before the log-ratio computations of both log-ratio
variants. -/
theorem C8_fallback_substitution :
    (∀ r f : Int,
      (r = 0 → fallbackRank r f = f) ∧
      (r ≠ 0 → fallbackRank r f = r) ∧
      (f ≠ r → (fallbackRank r f = f ↔ r = 0))) ∧
    (∀ (g : Displace.Game) (f : Int),
      Displace.Game.CalcClimbScore g f =
        ((fallbackRank g.Old.Rank f : Int) : ℚ) / ((fallbackRank g.New.Rank f : Int) : ℚ)) ∧
    (∀ (g : LogSorted.Game) (f : Int),
      LogSorted.Game.CalcClimbScore g f =
        Real.log ((fallbackRank g.Old.Rank f : Int) : ℝ) -
          Real.log ((fallbackRank g.New.Rank f : Int) : ℝ)) ∧
    (∀ (g : LogDiff.Game) (f : Int),
      LogDiff.Game.ClimbScoreValue g f =
        Real.log ((fallbackRank g.Old.Rank f : Int) : ℝ) -
          Real.log ((fallbackRank g.New.Rank f : Int) : ℝ)) := by
  refine ⟨fun r f => ⟨?_, ?_, ?_⟩, fun g f => rfl, fun g f => rfl, fun g f => rfl⟩
  · intro h
    rw [fallbackRank, if_pos h]
  · intro h
    rw [fallbackRank, if_neg h]
  · intro h
    constructor
    · intro he
      by_contra hr
      rw [fallbackRank, if_neg hr] at he
      exact h he.symm
    · intro hr
      rw [fallbackRank, if_pos hr]

/-- C8 counterexample: with rank 5 and fallback 5 the substituted rank equals
the fallback although the rank is not 0, so the claimed "equals f if and only
if the rank is 0" fails as stated. -/
theorem C8_fallback_substitution_counterexample :
    ¬ (fallbackRank 5 5 = 5 ↔ (5 : Int) = 0) := by
  decide

/-- Witness for C8 at concrete ranks and fallbacks. -/
theorem C8_fallback_substitution_witness :
    fallbackRank 0 7 = 7 ∧ fallbackRank 5 7 = 5 ∧ (fallbackRank 5 9 = 9 ↔ (5 : Int) = 0) :=
  ⟨(C8_fallback_substitution.1 0 7).1 rfl,
   (C8_fallback_substitution.1 5 7).2.1 (by decide),
   (C8_fallback_substitution.1 5 9).2.2 (by decide)⟩

/-- C4 (amended): the multi-snapshot variant's percentage rendering agrees
with the spec's normalised formula for every nonnegative score, but the
displacement variant renders the unnormalised `(score - 1) * 100` instead. -/
theorem C4_percentage_normalisation :
    (∀ s : ℚ, 0 ≤ s → Multi.ClimbScorePercNumber s = specPercOfImprovement s) ∧
    (∀ g : Displace.Game, Displace.Game.RatingPercNumber g = (g.ClimbScore - 1) * 100) := by
  constructor
  · intro s hs
    by_cases h : s > 1
    · have hs0 : (0 : ℚ) < s := lt_trans one_pos h
      have h1 : 1 / s ≤ s := by
        have : 1 / s ≤ 1 := by
          rw [div_le_one hs0]
          exact h.le
        exact this.trans h.le
      simp only [Multi.ClimbScorePercNumber, specPercOfImprovement, if_pos h, min_eq_right h1]
    · have hle : s ≤ 1 := not_lt.1 h
      have h2 : min s (1 / s) = s := by
        rcases eq_or_lt_of_le hs with he | hpos
        · rw [← he]
          norm_num
        · exact min_eq_left (by rw [le_div_iff₀ hpos]; nlinarith)
      simp only [Multi.ClimbScorePercNumber, specPercOfImprovement, if_neg h, h2]
  · intro g
    rfl

/-- C4 counterexample: at score 2 the displacement variant renders 100 while
the spec formula gives 50, and at the negative score -1/2 even the
multi-snapshot variant disagrees with the spec formula (150 versus 300). -/
theorem C4_percentage_normalisation_counterexample :
    Displace.Game.RatingPercNumber ⟨Displace.zeroRecord, Displace.zeroRecord, 2⟩ ≠
      specPercOfImprovement 2 ∧
    Multi.ClimbScorePercNumber (-(1 / 2)) ≠ specPercOfImprovement (-(1 / 2)) := by
  constructor
  · simp only [Displace.Game.RatingPercNumber, specPercOfImprovement]
    rw [min_eq_right (by norm_num : (1 : ℚ) / 2 ≤ 2)]
    norm_num
  · simp only [Multi.ClimbScorePercNumber, specPercOfImprovement]
    rw [if_neg (by norm_num : ¬ ((-(1 / 2) : ℚ) > 1)),
      min_eq_right (by norm_num : (1 : ℚ) / (-(1 / 2)) ≤ -(1 / 2))]
    norm_num

/-- Witness for C4 at the concrete score 3. -/
theorem C4_percentage_normalisation_witness :
    (0 : ℚ) ≤ 3 ∧ Multi.ClimbScorePercNumber 3 = specPercOfImprovement 3 :=
  ⟨by norm_num, C4_percentage_normalisation.1 3 (by norm_num)⟩

/-- C9: for both record parsers the result is an error exactly when the row
has fewer than 9 fields, when the rank is not a valid base-10 integer or (in
the multi-snapshot variant only) when the bayes average is not a valid
decimal; on success the record is populated from all 9 fields, the rank and
bayes average from their parsed values and the average and users-rated
columns as raw strings. -/
theorem C9_parse_record_errors :
    (∀ row : List String,
      (Multi.ParseRecord row = none ↔
        row.length < 9 ∨ goAtoi (row.getD 3 "") = none ∨ goParseFloat (row.getD 5 "") = none) ∧
      (∀ rank bayes, ¬ row.length < 9 → goAtoi (row.getD 3 "") = some rank →
        goParseFloat (row.getD 5 "") = some bayes →
        Multi.ParseRecord row = some ⟨row.getD 0 "", row.getD 1 "", row.getD 2 "", rank,
          row.getD 4 "", bayes, row.getD 6 "", row.getD 7 "", row.getD 8 ""⟩)) ∧
    (∀ row : List String,
      (Displace.ParseRecord row = none ↔
        row.length < 9 ∨ goAtoi (row.getD 3 "") = none) ∧
      (∀ rank, ¬ row.length < 9 → goAtoi (row.getD 3 "") = some rank →
        Displace.ParseRecord row = some ⟨row.getD 0 "", row.getD 1 "", row.getD 2 "", rank,
          row.getD 4 "", row.getD 5 "", row.getD 6 "", row.getD 7 "", row.getD 8 ""⟩)) := by
  constructor
  · intro row
    constructor
    · by_cases hl : row.length ≤ 8
      · simp only [Multi.ParseRecord, if_pos hl]
        exact iff_of_true trivial (Or.inl (by omega))
      · rcases hA : goAtoi (row.getD 3 "") with _ | rank
        · simp only [Multi.ParseRecord, if_neg hl, hA]
          exact iff_of_true trivial (Or.inr (Or.inl trivial))
        · rcases hB : goParseFloat (row.getD 5 "") with _ | bayes
          · simp only [Multi.ParseRecord, if_neg hl, hA, hB]
            exact iff_of_true trivial (Or.inr (Or.inr trivial))
          · simp only [Multi.ParseRecord, if_neg hl, hA, hB]
            refine iff_of_false (by simp) ?_
            rintro (h | h | h)
            · omega
            · simp at h
            · simp at h
    · intro rank bayes hlen hA hB
      simp only [Multi.ParseRecord, if_neg (by omega : ¬ row.length ≤ 8), hA, hB]
  · intro row
    constructor
    · by_cases hl : row.length ≤ 8
      · simp only [Displace.ParseRecord, if_pos hl]
        exact iff_of_true trivial (Or.inl (by omega))
      · rcases hA : goAtoi (row.getD 3 "") with _ | rank
        · simp only [Displace.ParseRecord, if_neg hl, hA]
          exact iff_of_true trivial (Or.inr trivial)
        · simp only [Displace.ParseRecord, if_neg hl, hA]
          refine iff_of_false (by simp) ?_
          rintro (h | h)
          · omega
          · simp at h
    · intro rank hlen hA
      simp only [Displace.ParseRecord, if_neg (by omega : ¬ row.length ≤ 8), hA]

/-- Witness for C9 on a concrete 9-field row. -/
theorem C9_parse_record_errors_witness :
    Multi.ParseRecord ["1", "nm", "1990", "5", "7.5", "6", "100", "u", "t"] =
      some ⟨"1", "nm", "1990", 5, "7.5", 6, "100", "u", "t"⟩ ∧
    Displace.ParseRecord ["1", "nm", "1990", "5", "7.5", "6.5", "100", "u", "t"] =
      some ⟨"1", "nm", "1990", 5, "7.5", "6.5", "100", "u", "t"⟩ :=
  ⟨(C9_parse_record_errors.1 ["1", "nm", "1990", "5", "7.5", "6", "100", "u", "t"]).2 5 6
      (by decide) (by decide) (by decide),
   (C9_parse_record_errors.2 ["1", "nm", "1990", "5", "7.5", "6.5", "100", "u", "t"]).2 5
      (by decide) (by decide)⟩

/-- C1 (amended): the new-rating estimate is suppressed exactly when the new
ratings count is at most the old one or the incremental fraction is below the
5 percent threshold; a returned value is clamped into the interval only when
the two parsed averages differ, while the equal-averages shortcut returns the
common parsed average unclamped (which can lie outside the interval). -/
theorem C1_new_rating_average :
    ∀ oldRecord newRecord : Multi.Record,
      (Multi.NewRatingAverage oldRecord newRecord = none ↔
        parseFloatOr0 newRecord.UsersRated ≤ parseFloatOr0 oldRecord.UsersRated ∨
          (parseFloatOr0 newRecord.UsersRated - parseFloatOr0 oldRecord.UsersRated) /
              parseFloatOr0 newRecord.UsersRated < Multi.MinNewRatingRatio) ∧
      (∀ v, Multi.NewRatingAverage oldRecord newRecord = some v →
        parseFloatOr0 oldRecord.Average ≠ parseFloatOr0 newRecord.Average →
        1 ≤ v ∧ v ≤ 10) ∧
      (∀ v, Multi.NewRatingAverage oldRecord newRecord = some v →
        parseFloatOr0 oldRecord.Average = parseFloatOr0 newRecord.Average →
        v = parseFloatOr0 newRecord.Average) := by
  intro o n
  by_cases hg : parseFloatOr0 n.UsersRated ≤ parseFloatOr0 o.UsersRated ∨
      (parseFloatOr0 n.UsersRated - parseFloatOr0 o.UsersRated) /
          parseFloatOr0 n.UsersRated < Multi.MinNewRatingRatio
  · refine ⟨iff_of_true ?_ hg, ?_, ?_⟩
    · simp only [Multi.NewRatingAverage, if_pos hg]
    · intro v hv _
      simp only [Multi.NewRatingAverage, if_pos hg] at hv
      exact absurd hv (by simp)
    · intro v hv _
      simp only [Multi.NewRatingAverage, if_pos hg] at hv
      exact absurd hv (by simp)
  · refine ⟨iff_of_false ?_ hg, ?_, ?_⟩
    · by_cases ha : parseFloatOr0 o.Average = parseFloatOr0 n.Average
      · simp [Multi.NewRatingAverage, if_neg hg, if_pos ha]
      · simp [Multi.NewRatingAverage, if_neg hg, if_neg ha]
    · intro v hv hne
      simp only [Multi.NewRatingAverage, if_neg hg, if_neg hne] at hv
      obtain rfl := (Option.some_inj.1 hv).symm
      exact ⟨le_max_left 1 _, max_le (by norm_num) (min_le_left 10 _)⟩
    · intro v hv ha
      simp only [Multi.NewRatingAverage, if_neg hg, if_pos ha] at hv
      exact (Option.some_inj.1 hv).symm

/-- C1 counterexample: with both averages missing (parsed as 0) and the
ratings counts moving from 1 to 2 the guard passes, the equal-averages
shortcut fires and the returned value 0 lies outside the interval claimed. -/
theorem C1_new_rating_average_counterexample :
    Multi.NewRatingAverage ⟨"", "", "", 0, "", 0, "1", "", ""⟩ ⟨"", "", "", 0, "", 0, "2", "", ""⟩ =
      some 0 ∧ ¬ ((1 : ℚ) ≤ 0 ∧ (0 : ℚ) ≤ 10) := by
  constructor
  · simp only [Multi.NewRatingAverage]
    rw [show parseFloatOr0 "1" = 1 by decide, show parseFloatOr0 "2" = 2 by decide,
      show parseFloatOr0 "" = 0 by decide]
    norm_num [Multi.MinNewRatingRatio]
  · norm_num

/-- Witness for C1 on records whose averages differ. -/
theorem C1_new_rating_average_witness :
    ∃ v, Multi.NewRatingAverage ⟨"", "", "", 0, "4", 0, "1", "", ""⟩
        ⟨"", "", "", 0, "9", 0, "2", "", ""⟩ = some v ∧ 1 ≤ v ∧ v ≤ 10 := by
  have hg : ¬ (parseFloatOr0 "2" ≤ parseFloatOr0 "1" ∨
      (parseFloatOr0 "2" - parseFloatOr0 "1") / parseFloatOr0 "2" < Multi.MinNewRatingRatio) := by
    rw [show parseFloatOr0 "2" = 2 by decide, show parseFloatOr0 "1" = 1 by decide]
    norm_num [Multi.MinNewRatingRatio]
  have hv : Multi.NewRatingAverage ⟨"", "", "", 0, "4", 0, "1", "", ""⟩
      ⟨"", "", "", 0, "9", 0, "2", "", ""⟩ =
      some (max 1 (min 10 ((parseFloatOr0 "9" * parseFloatOr0 "2" - parseFloatOr0 "4" * parseFloatOr0 "1") /
        (parseFloatOr0 "2" - parseFloatOr0 "1")))) := by
    simp only [Multi.NewRatingAverage, if_neg hg, if_neg (by decide : ¬ parseFloatOr0 "4" = parseFloatOr0 "9")]
  exact ⟨_, hv,
    (C1_new_rating_average ⟨"", "", "", 0, "4", 0, "1", "", ""⟩ ⟨"", "", "", 0, "9", 0, "2", "", ""⟩).2.1
      _ hv (by decide)⟩

/-- C10: an unparseable average or users-rated string (including the empty
missing encoding) is treated as the value 0, and whenever the guard lets
control reach the weighted-delta quotient the denominator is strictly
positive, so the division never divides by zero. -/
theorem C10_unparseable_zero_and_positive_denominator :
    goParseFloat "" = none ∧
    (∀ s : String, goParseFloat s = none → parseFloatOr0 s = 0) ∧
    (∀ oldRecord newRecord : Multi.Record,
      ¬ (parseFloatOr0 newRecord.UsersRated ≤ parseFloatOr0 oldRecord.UsersRated ∨
          (parseFloatOr0 newRecord.UsersRated - parseFloatOr0 oldRecord.UsersRated) /
              parseFloatOr0 newRecord.UsersRated < Multi.MinNewRatingRatio) →
        0 < parseFloatOr0 newRecord.UsersRated - parseFloatOr0 oldRecord.UsersRated ∧
        (parseFloatOr0 oldRecord.Average ≠ parseFloatOr0 newRecord.Average →
          Multi.NewRatingAverage oldRecord newRecord =
            some (max 1 (min 10
              ((parseFloatOr0 newRecord.Average * parseFloatOr0 newRecord.UsersRated -
                  parseFloatOr0 oldRecord.Average * parseFloatOr0 oldRecord.UsersRated) /
                (parseFloatOr0 newRecord.UsersRated - parseFloatOr0 oldRecord.UsersRated)))))) := by
  refine ⟨by decide, ?_, ?_⟩
  · intro s hs
    rw [parseFloatOr0, hs]
    rfl
  · intro o n hg
    have h1 : parseFloatOr0 o.UsersRated < parseFloatOr0 n.UsersRated :=
      not_le.1 (fun h => hg (Or.inl h))
    refine ⟨sub_pos.2 h1, ?_⟩
    intro hne
    simp only [Multi.NewRatingAverage, if_neg hg, if_neg hne]

/-- Witness for C10 at concrete records with ratings counts 1 and 2. -/
theorem C10_unparseable_zero_and_positive_denominator_witness :
    0 < parseFloatOr0 "2" - parseFloatOr0 "1" ∧
    Multi.NewRatingAverage ⟨"", "", "", 0, "", 0, "1", "", ""⟩ ⟨"", "", "", 0, "9", 0, "2", "", ""⟩ =
      some (max 1 (min 10 ((parseFloatOr0 "9" * parseFloatOr0 "2" - parseFloatOr0 "" * parseFloatOr0 "1") /
        (parseFloatOr0 "2" - parseFloatOr0 "1")))) := by
  have hg : ¬ (parseFloatOr0 "2" ≤ parseFloatOr0 "1" ∨
      (parseFloatOr0 "2" - parseFloatOr0 "1") / parseFloatOr0 "2" < Multi.MinNewRatingRatio) := by
    rw [show parseFloatOr0 "2" = 2 by decide, show parseFloatOr0 "1" = 1 by decide]
    norm_num [Multi.MinNewRatingRatio]
  have h := C10_unparseable_zero_and_positive_denominator.2.2
    ⟨"", "", "", 0, "", 0, "1", "", ""⟩ ⟨"", "", "", 0, "9", 0, "2", "", ""⟩ hg
  exact ⟨h.1, h.2 (by decide)⟩

/-- The output-loop keep condition unfolded to propositions. -/
theorem outputKeep_iff (g : Displace.Game) :
    Displace.outputKeep g = true ↔
      ¬ (g.Old.Rank = 0 ∨ g.New.Rank = 0) ∧
      ¬ (goAtoi g.New.UsersRated = none ∨ atoiOr0 g.New.UsersRated < 100) := by
  simp [Displace.outputKeep, not_or, Option.isNone_iff_eq_none, Option.isSome_iff_ne_none]

/-- C2 (amended): in the displacement variant's output loop a game is written
exactly when it survives the rank filter and the users-rated filter, and the
users-rated filter excludes it exactly when the parse of its new users-rated
string fails OR the parsed value is below the fixed minimum of 100: the code
combines the two sub-conditions with logical OR, not the AND the claim
states. -/
theorem C2_users_rated_filter_or :
    ∀ (games : List Displace.Game) (maxRank : Int) (g : Displace.Game),
      g ∈ Displace.outputList games maxRank ↔
        g ∈ Displace.sortedSlice games maxRank ∧
          ¬ (g.Old.Rank = 0 ∨ g.New.Rank = 0) ∧
          ¬ (goAtoi g.New.UsersRated = none ∨ atoiOr0 g.New.UsersRated < 100) := by
  intro games maxRank g
  rw [Displace.outputList, List.mem_filter, outputKeep_iff]

/-- C2 counterexample: a game with both ranks 1 and new users-rated string
"50" (which parses, so the claimed AND-condition is false and the claim
predicts the game is kept) is nevertheless excluded from the output. -/
theorem C2_users_rated_filter_or_counterexample :
    Displace.outputList
        [⟨⟨"x", "", "", 1, "", "", "", "", ""⟩, ⟨"x", "", "", 1, "", "", "50", "", ""⟩, 0⟩] 2 = [] ∧
    (Displace.sortedSlice
        [⟨⟨"x", "", "", 1, "", "", "", "", ""⟩, ⟨"x", "", "", 1, "", "", "50", "", ""⟩, 0⟩] 2).length = 1 ∧
    ¬ (goAtoi "50" = none ∧ atoiOr0 "50" < 100) :=
  ⟨rfl, rfl, by decide⟩

/-- Insertion sort descending by a rational key is sorted by that key. -/
theorem sorted_insertionSort_key_desc {α : Type} (f : α → ℚ) (l : List α) :
    List.Sorted (fun a b => f b ≤ f a) (List.insertionSort (fun a b => f b ≤ f a) l) := by
  haveI : IsTotal α (fun a b => f b ≤ f a) := ⟨fun a b => le_total (f b) (f a)⟩
  haveI : IsTrans α (fun a b => f b ≤ f a) := ⟨fun a b c h1 h2 => le_trans h2 h1⟩
  exact List.sorted_insertionSort _ l

/-- A list sorted descending by a key has pairwise-descending positional
keys. -/
theorem sorted_key_getD {α : Type} {f : α → ℚ} {l : List α}
    (h : List.Sorted (fun a b => f b ≤ f a) l) (d : α) {i j : Nat} (hij : i < j)
    (hj : j < l.length) : f (l.getD j d) ≤ f (l.getD i d) := by
  have hi : i < l.length := lt_trans hij hj
  have hp := List.pairwise_iff_get.1 h ⟨i, hi⟩ ⟨j, hj⟩ hij
  rw [List.getD_eq_getElem l d hj, List.getD_eq_getElem l d hi]
  simpa [List.get_eq_getElem] using hp

/-- The climb score dispatch at the rank mode is the rank ratio. -/
theorem climbScore_mode_rank (g : Multi.Game) :
    Multi.Game.ClimbScore g Multi.ModeRank = Multi.Game.ClimbScoreRank g := rfl

/-- The climb score dispatch at the bayes mode is the bayes delta. -/
theorem climbScore_mode_bayes (g : Multi.Game) :
    Multi.Game.ClimbScore g Multi.ModeBayes = Multi.Game.ClimbScoreBayes g := by
  rw [Multi.Game.ClimbScore, Multi.ClimbScore,
    if_neg (by decide : ¬ Multi.ModeBayes = Multi.ModeRank), if_pos rfl]
  rfl

/-- C3 (amended): in the variants that sort — the multi-snapshot program in
either mode, and the displacement program — the sequence of games written to
the output CSV is descending and total in the active mode's climb score; the
plain log-ratio diff variant (the second program of main.go) applies no sort
and writes games in map iteration order, so its output is not sorted in
general. -/
theorem C3_output_sorted_descending :
    (∀ (latest : Multi.File) (older : List Multi.File) (minRatings : Int) (mode : String),
      mode = Multi.ModeRank ∨ mode = Multi.ModeBayes →
      ∀ i j : Nat, i < j →
        j < (Multi.sortGames mode (Multi.gamesList latest older minRatings)).length →
        Multi.Game.ClimbScore
            ((Multi.sortGames mode (Multi.gamesList latest older minRatings)).getD j default)
            mode ≤
          Multi.Game.ClimbScore
            ((Multi.sortGames mode (Multi.gamesList latest older minRatings)).getD i default)
            mode) ∧
    (∀ (games : List Displace.Game) (maxRank : Int),
      ∀ i j : Nat, i < j → j < (Displace.outputList games maxRank).length →
        ((Displace.outputList games maxRank).getD j Displace.zeroGame).ClimbScore ≤
          ((Displace.outputList games maxRank).getD i Displace.zeroGame).ClimbScore) := by
  constructor
  · intro latest older minRatings mode hmode i j hij hj
    rcases hmode with rfl | rfl
    · rw [Multi.sortGames, if_pos rfl] at hj ⊢
      simp only [climbScore_mode_rank]
      exact sorted_key_getD (sorted_insertionSort_key_desc Multi.Game.ClimbScoreRank _) _ hij hj
    · rw [Multi.sortGames, if_neg (by decide : ¬ Multi.ModeBayes = Multi.ModeRank),
        if_pos rfl] at hj ⊢
      simp only [climbScore_mode_bayes]
      exact sorted_key_getD (sorted_insertionSort_key_desc Multi.Game.ClimbScoreBayes _) _ hij hj
  · intro games maxRank i j hij hj
    have hs : List.Sorted (fun a b : Displace.Game => b.ClimbScore ≤ a.ClimbScore)
        (Displace.outputList games maxRank) := by
      rw [Displace.outputList, Displace.sortedSlice]
      exact List.Pairwise.filter _
        (sorted_insertionSort_key_desc (fun g : Displace.Game => g.ClimbScore) _)
    exact sorted_key_getD hs _ hij hj

/-- C3 counterexample: in the unsorted log-ratio variant, with game A moving
from rank 1 to rank 2 and game B from rank 2 to rank 1, the written order is
the map insertion order A before B, and the log-ratio score of the first
written game is strictly below that of the second: the output is not
descending. -/
theorem C3_output_sorted_descending_counterexample :
    (LogDiff.gamesInMapOrder
        [⟨"A", "", "", 1, "", "", "", "", ""⟩, ⟨"B", "", "", 2, "", "", "", "", ""⟩]
        [⟨"A", "", "", 2, "", "", "", "", ""⟩, ⟨"B", "", "", 1, "", "", "", "", ""⟩]).length = 2 ∧
    LogDiff.Game.ClimbScoreValue
        ((LogDiff.gamesInMapOrder
            [⟨"A", "", "", 1, "", "", "", "", ""⟩, ⟨"B", "", "", 2, "", "", "", "", ""⟩]
            [⟨"A", "", "", 2, "", "", "", "", ""⟩, ⟨"B", "", "", 1, "", "", "", "", ""⟩]).getD 0
          LogDiff.zeroGame)
        (LogDiff.maxRankOf
            [⟨"A", "", "", 1, "", "", "", "", ""⟩, ⟨"B", "", "", 2, "", "", "", "", ""⟩]
            [⟨"A", "", "", 2, "", "", "", "", ""⟩, ⟨"B", "", "", 1, "", "", "", "", ""⟩] + 1) <
      LogDiff.Game.ClimbScoreValue
        ((LogDiff.gamesInMapOrder
            [⟨"A", "", "", 1, "", "", "", "", ""⟩, ⟨"B", "", "", 2, "", "", "", "", ""⟩]
            [⟨"A", "", "", 2, "", "", "", "", ""⟩, ⟨"B", "", "", 1, "", "", "", "", ""⟩]).getD 1
          LogDiff.zeroGame)
        (LogDiff.maxRankOf
            [⟨"A", "", "", 1, "", "", "", "", ""⟩, ⟨"B", "", "", 2, "", "", "", "", ""⟩]
            [⟨"A", "", "", 2, "", "", "", "", ""⟩, ⟨"B", "", "", 1, "", "", "", "", ""⟩] + 1) := by
  refine ⟨rfl, ?_⟩
  have h0 : (LogDiff.gamesInMapOrder
      [⟨"A", "", "", 1, "", "", "", "", ""⟩, ⟨"B", "", "", 2, "", "", "", "", ""⟩]
      [⟨"A", "", "", 2, "", "", "", "", ""⟩, ⟨"B", "", "", 1, "", "", "", "", ""⟩]).getD 0
        LogDiff.zeroGame =
      ⟨⟨"A", "", "", 1, "", "", "", "", ""⟩, ⟨"A", "", "", 2, "", "", "", "", ""⟩⟩ := rfl
  have h1 : (LogDiff.gamesInMapOrder
      [⟨"A", "", "", 1, "", "", "", "", ""⟩, ⟨"B", "", "", 2, "", "", "", "", ""⟩]
      [⟨"A", "", "", 2, "", "", "", "", ""⟩, ⟨"B", "", "", 1, "", "", "", "", ""⟩]).getD 1
        LogDiff.zeroGame =
      ⟨⟨"B", "", "", 2, "", "", "", "", ""⟩, ⟨"B", "", "", 1, "", "", "", "", ""⟩⟩ := rfl
  have hm : LogDiff.maxRankOf
      [⟨"A", "", "", 1, "", "", "", "", ""⟩, ⟨"B", "", "", 2, "", "", "", "", ""⟩]
      [⟨"A", "", "", 2, "", "", "", "", ""⟩, ⟨"B", "", "", 1, "", "", "", "", ""⟩] + 1 = 3 := rfl
  rw [h0, h1, hm]
  simp only [LogDiff.Game.ClimbScoreValue]
  norm_num
  have hl2 : (0 : ℝ) < Real.log 2 := Real.log_pos (by norm_num)
  linarith [Real.log_one]

/-- Witness for C3 on concrete two-game runs of the two sorting variants. -/
theorem C3_output_sorted_descending_witness :
    Multi.Game.ClimbScore
        ((Multi.sortGames Multi.ModeRank
            (Multi.gamesList
              ⟨10, [⟨"a", "", "", 1, "", 5, "150", "", ""⟩, ⟨"b", "", "", 2, "", 6, "150", "", ""⟩]⟩
              [⟨3, [⟨"a", "", "", 2, "", 4, "100", "", ""⟩, ⟨"b", "", "", 1, "", 7, "100", "", ""⟩]⟩]
              0)).getD 1 default) Multi.ModeRank ≤
      Multi.Game.ClimbScore
        ((Multi.sortGames Multi.ModeRank
            (Multi.gamesList
              ⟨10, [⟨"a", "", "", 1, "", 5, "150", "", ""⟩, ⟨"b", "", "", 2, "", 6, "150", "", ""⟩]⟩
              [⟨3, [⟨"a", "", "", 2, "", 4, "100", "", ""⟩, ⟨"b", "", "", 1, "", 7, "100", "", ""⟩]⟩]
              0)).getD 0 default) Multi.ModeRank ∧
    ((Displace.outputList
          [⟨⟨"a", "", "", 4, "", "", "", "", ""⟩, ⟨"a", "", "", 1, "", "", "150", "", ""⟩, 0⟩,
           ⟨⟨"b", "", "", 2, "", "", "", "", ""⟩, ⟨"b", "", "", 2, "", "", "150", "", ""⟩, 0⟩]
          4).getD 1 Displace.zeroGame).ClimbScore ≤
      ((Displace.outputList
          [⟨⟨"a", "", "", 4, "", "", "", "", ""⟩, ⟨"a", "", "", 1, "", "", "150", "", ""⟩, 0⟩,
           ⟨⟨"b", "", "", 2, "", "", "", "", ""⟩, ⟨"b", "", "", 2, "", "", "150", "", ""⟩, 0⟩]
          4).getD 0 Displace.zeroGame).ClimbScore := by
  constructor
  · refine C3_output_sorted_descending.1
      ⟨10, [⟨"a", "", "", 1, "", 5, "150", "", ""⟩, ⟨"b", "", "", 2, "", 6, "150", "", ""⟩]⟩
      [⟨3, [⟨"a", "", "", 2, "", 4, "100", "", ""⟩, ⟨"b", "", "", 1, "", 7, "100", "", ""⟩]⟩]
      0 Multi.ModeRank (Or.inl rfl) 0 1 (by decide) ?_
    rw [Multi.sortGames, if_pos rfl, List.length_insertionSort]
    decide
  · have hall : ∀ x ∈ Displace.sortedSlice
        [⟨⟨"a", "", "", 4, "", "", "", "", ""⟩, ⟨"a", "", "", 1, "", "", "150", "", ""⟩, 0⟩,
         ⟨⟨"b", "", "", 2, "", "", "", "", ""⟩, ⟨"b", "", "", 2, "", "", "150", "", ""⟩, 0⟩] 4,
        Displace.outputKeep x = true := by
      intro x hx
      rw [Displace.sortedSlice] at hx
      have hx2 := (List.perm_insertionSort
        (fun a b : Displace.Game => b.ClimbScore ≤ a.ClimbScore)
        (Displace.scoredGames
          [⟨⟨"a", "", "", 4, "", "", "", "", ""⟩, ⟨"a", "", "", 1, "", "", "150", "", ""⟩, 0⟩,
           ⟨⟨"b", "", "", 2, "", "", "", "", ""⟩, ⟨"b", "", "", 2, "", "", "150", "", ""⟩, 0⟩]
          4)).mem_iff.1 hx
      have hx3 : x ∈
          [(⟨⟨"a", "", "", 4, "", "", "", "", ""⟩, ⟨"a", "", "", 1, "", "", "150", "", ""⟩,
              Displace.Game.CalcClimbScore
                ⟨⟨"a", "", "", 4, "", "", "", "", ""⟩, ⟨"a", "", "", 1, "", "", "150", "", ""⟩, 0⟩
                (4 / 2)⟩ : Displace.Game),
           ⟨⟨"b", "", "", 2, "", "", "", "", ""⟩, ⟨"b", "", "", 2, "", "", "150", "", ""⟩,
              Displace.Game.CalcClimbScore
                ⟨⟨"b", "", "", 2, "", "", "", "", ""⟩, ⟨"b", "", "", 2, "", "", "150", "", ""⟩, 0⟩
                (4 / 2)⟩] := hx2
      rcases List.mem_cons.1 hx3 with rfl | hx4
      · decide
      · rw [List.mem_singleton] at hx4
        subst hx4
        decide
    have hlen : (Displace.outputList
        [⟨⟨"a", "", "", 4, "", "", "", "", ""⟩, ⟨"a", "", "", 1, "", "", "150", "", ""⟩, 0⟩,
         ⟨⟨"b", "", "", 2, "", "", "", "", ""⟩, ⟨"b", "", "", 2, "", "", "150", "", ""⟩, 0⟩]
        4).length = 2 := by
      rw [Displace.outputList, List.filter_eq_self.2 hall, Displace.sortedSlice,
        List.length_insertionSort]
      rfl
    refine C3_output_sorted_descending.2
      [⟨⟨"a", "", "", 4, "", "", "", "", ""⟩, ⟨"a", "", "", 1, "", "", "150", "", ""⟩, 0⟩,
       ⟨⟨"b", "", "", 2, "", "", "", "", ""⟩, ⟨"b", "", "", 2, "", "", "150", "", ""⟩, 0⟩]
      4 0 1 (by decide) ?_
    rw [hlen]
    decide

/-- Every entry of the by-old-rank index has its key equal to the stored
game's old rank, which is nonzero. -/
theorem gamesByOldRank_key (games : List Displace.Game) (maxRank : Int) :
    ∀ p ∈ Displace.gamesByOldRank games maxRank, (p.2).Old.Rank = p.1 ∧ (p.2).Old.Rank ≠ 0 := by
  rw [Displace.gamesByOldRank]
  generalize Displace.scoredGames games maxRank = l
  have hgen : ∀ (l : List Displace.Game) (m : List (Int × Displace.Game)),
      (∀ p ∈ m, (p.2).Old.Rank = p.1 ∧ (p.2).Old.Rank ≠ 0) →
      ∀ p ∈ l.foldl (fun m g => if g.Old.Rank ≠ 0 then alistInsert m g.Old.Rank g else m) m,
        (p.2).Old.Rank = p.1 ∧ (p.2).Old.Rank ≠ 0 := by
    intro l
    induction l with
    | nil => intro m hm p hp; exact hm p hp
    | cons g rest ih =>
      intro m hm p hp
      rw [List.foldl_cons] at hp
      refine ih _ ?_ p hp
      intro q hq
      by_cases hg : g.Old.Rank ≠ 0
      · rw [if_pos hg] at hq
        rcases mem_alistInsert hq with rfl | hq2
        · exact ⟨rfl, hg⟩
        · exact hm q hq2
      · rw [if_neg hg] at hq
        exact hm q hq
  exact hgen l [] (by intro p hp; simp at hp)

/-- Membership in the displaced-collection fold: a collected game comes from a
successful index lookup at some scanned position and satisfies the collect
condition. -/
theorem mem_displaced_fold {m : List (Int × Displace.Game)} {g : Displace.Game} :
    ∀ (rs : List Int) (acc : List Displace.Game) (og : Displace.Game),
      og ∈ rs.foldl (fun acc r =>
          if ((alistLookup m r).getD Displace.zeroGame).New.Rank ≠ 0 ∧
              g.New.Rank < ((alistLookup m r).getD Displace.zeroGame).New.Rank ∧
              ((alistLookup m r).getD Displace.zeroGame).Old.Rank <
                ((alistLookup m r).getD Displace.zeroGame).New.Rank then
            acc ++ [(alistLookup m r).getD Displace.zeroGame]
          else acc) acc →
      og ∈ acc ∨ ∃ r ∈ rs, (alistLookup m r).getD Displace.zeroGame = og ∧
        og.New.Rank ≠ 0 ∧ g.New.Rank < og.New.Rank ∧ og.Old.Rank < og.New.Rank := by
  intro rs
  induction rs with
  | nil => intro acc og h; exact Or.inl h
  | cons r rest ih =>
    intro acc og h
    rw [List.foldl_cons] at h
    rcases ih _ og h with hacc | ⟨r', hr', hcond⟩
    · by_cases hc : ((alistLookup m r).getD Displace.zeroGame).New.Rank ≠ 0 ∧
          g.New.Rank < ((alistLookup m r).getD Displace.zeroGame).New.Rank ∧
          ((alistLookup m r).getD Displace.zeroGame).Old.Rank <
            ((alistLookup m r).getD Displace.zeroGame).New.Rank
      · rw [if_pos hc] at hacc
        rcases List.mem_append.1 hacc with h1 | h1
        · exact Or.inl h1
        · rw [List.mem_singleton] at h1
          subst h1
          exact Or.inr ⟨r, List.mem_cons_self _ _, rfl, hc⟩
      · rw [if_neg hc] at hacc
        exact Or.inl hacc
    · exact Or.inr ⟨r', List.mem_cons_of_mem _ hr', hcond⟩

/-- C6: a game collected as displaced by `g` is never `g` itself: it held an
old rank in the scanned interval from `g.New.Rank + 1` to `g.Old.Rank`
inclusive, and its new rank is worse than `g`'s new rank and worse than its
own old rank. -/
theorem C6_displaced_never_self :
    ∀ (games : List Displace.Game) (maxRank : Int) (g og : Displace.Game),
      og ∈ Displace.displacedFor g (Displace.gamesByOldRank games maxRank) →
        og ≠ g ∧
        g.New.Rank + 1 ≤ og.Old.Rank ∧ og.Old.Rank ≤ g.Old.Rank ∧
        g.New.Rank < og.New.Rank ∧ og.Old.Rank < og.New.Rank := by
  intro games maxRank g og hmem
  rw [Displace.displacedFor] at hmem
  have hmem2 := (List.perm_insertionSort
    (fun a b : Displace.Game => atoiOr0 b.New.UsersRated ≤ atoiOr0 a.New.UsersRated) _).mem_iff.1
    hmem
  rcases mem_displaced_fold (intRange (g.New.Rank + 1) g.Old.Rank) [] og hmem2 with h0 | hex
  · simp at h0
  · obtain ⟨r, hr, hog, hnz, hgn, hoo⟩ := hex
    have hran := mem_intRange hr
    have hkey : og.Old.Rank = r := by
      rcases hl : alistLookup (Displace.gamesByOldRank games maxRank) r with _ | v
      · rw [hl, Option.getD_none] at hog
        subst hog
        exact absurd rfl hnz
      · rw [hl] at hog
        have hv : (r, v) ∈ Displace.gamesByOldRank games maxRank := alistLookup_mem hl
        have := (gamesByOldRank_key games maxRank (r, v) hv).1
        rw [← hog]
        exact this
    refine ⟨?_, hkey ▸ hran.1, hkey ▸ hran.2, hgn, hoo⟩
    intro he
    rw [he] at hgn
    exact lt_irrefl _ hgn

/-- Witness for C6: a concrete game that climbed from rank 3 to rank 1 past a
game that held old rank 2 and fell to rank 5. -/
theorem C6_displaced_never_self_witness :
    (Displace.displacedFor
        ⟨⟨"g", "", "", 3, "", "", "", "", ""⟩, ⟨"g", "", "", 1, "", "", "", "", ""⟩, 0⟩
        (Displace.gamesByOldRank
          [⟨⟨"q", "", "", 2, "", "", "", "", ""⟩, ⟨"q", "", "", 5, "", "", "", "", ""⟩, 0⟩]
          4)).length = 1 ∧
    ((Displace.displacedFor
        ⟨⟨"g", "", "", 3, "", "", "", "", ""⟩, ⟨"g", "", "", 1, "", "", "", "", ""⟩, 0⟩
        (Displace.gamesByOldRank
          [⟨⟨"q", "", "", 2, "", "", "", "", ""⟩, ⟨"q", "", "", 5, "", "", "", "", ""⟩, 0⟩]
          4)).getD 0 Displace.zeroGame ≠
        ⟨⟨"g", "", "", 3, "", "", "", "", ""⟩, ⟨"g", "", "", 1, "", "", "", "", ""⟩, 0⟩ ∧
      (⟨⟨"g", "", "", 3, "", "", "", "", ""⟩, ⟨"g", "", "", 1, "", "", "", "", ""⟩,
          (0 : ℚ)⟩ : Displace.Game).New.Rank + 1 ≤
        ((Displace.displacedFor
            ⟨⟨"g", "", "", 3, "", "", "", "", ""⟩, ⟨"g", "", "", 1, "", "", "", "", ""⟩, 0⟩
            (Displace.gamesByOldRank
              [⟨⟨"q", "", "", 2, "", "", "", "", ""⟩, ⟨"q", "", "", 5, "", "", "", "", ""⟩, 0⟩]
              4)).getD 0 Displace.zeroGame).Old.Rank ∧
      ((Displace.displacedFor
          ⟨⟨"g", "", "", 3, "", "", "", "", ""⟩, ⟨"g", "", "", 1, "", "", "", "", ""⟩, 0⟩
          (Displace.gamesByOldRank
            [⟨⟨"q", "", "", 2, "", "", "", "", ""⟩, ⟨"q", "", "", 5, "", "", "", "", ""⟩, 0⟩]
            4)).getD 0 Displace.zeroGame).Old.Rank ≤
        (⟨⟨"g", "", "", 3, "", "", "", "", ""⟩, ⟨"g", "", "", 1, "", "", "", "", ""⟩,
            (0 : ℚ)⟩ : Displace.Game).Old.Rank ∧
      (⟨⟨"g", "", "", 3, "", "", "", "", ""⟩, ⟨"g", "", "", 1, "", "", "", "", ""⟩,
          (0 : ℚ)⟩ : Displace.Game).New.Rank <
        ((Displace.displacedFor
            ⟨⟨"g", "", "", 3, "", "", "", "", ""⟩, ⟨"g", "", "", 1, "", "", "", "", ""⟩, 0⟩
            (Displace.gamesByOldRank
              [⟨⟨"q", "", "", 2, "", "", "", "", ""⟩, ⟨"q", "", "", 5, "", "", "", "", ""⟩, 0⟩]
              4)).getD 0 Displace.zeroGame).New.Rank ∧
      ((Displace.displacedFor
          ⟨⟨"g", "", "", 3, "", "", "", "", ""⟩, ⟨"g", "", "", 1, "", "", "", "", ""⟩, 0⟩
          (Displace.gamesByOldRank
            [⟨⟨"q", "", "", 2, "", "", "", "", ""⟩, ⟨"q", "", "", 5, "", "", "", "", ""⟩, 0⟩]
            4)).getD 0 Displace.zeroGame).Old.Rank <
        ((Displace.displacedFor
            ⟨⟨"g", "", "", 3, "", "", "", "", ""⟩, ⟨"g", "", "", 1, "", "", "", "", ""⟩, 0⟩
            (Displace.gamesByOldRank
              [⟨⟨"q", "", "", 2, "", "", "", "", ""⟩, ⟨"q", "", "", 5, "", "", "", "", ""⟩, 0⟩]
              4)).getD 0 Displace.zeroGame).New.Rank) := by
  refine ⟨rfl, ?_⟩
  refine C6_displaced_never_self
    [⟨⟨"q", "", "", 2, "", "", "", "", ""⟩, ⟨"q", "", "", 5, "", "", "", "", ""⟩, 0⟩] 4
    ⟨⟨"g", "", "", 3, "", "", "", "", ""⟩, ⟨"g", "", "", 1, "", "", "", "", ""⟩, 0⟩ _ ?_
  exact List.mem_singleton_self _

/-- The optional last element of a list is a member. -/
theorem mem_of_getLast? {α : Type} {l : List α} {a : α} (h : l.getLast? = some a) : a ∈ l := by
  induction l with
  | nil => simp at h
  | cons b rest ih =>
    rcases rest with _ | ⟨c, rest'⟩
    · obtain rfl : b = a := by simpa using h
      exact List.mem_singleton_self _
    · rw [List.getLast?_cons_cons] at h
      exact List.mem_cons_of_mem _ (ih h)

/-- The games-map invariant is antitone in its date lower bound. -/
theorem mapInv_mono {latest : Multi.File} {d d' : Int} {m : List (String × Multi.Game)}
    (hdd : d' ≤ d) (h : Multi.MapInv latest d m) : Multi.MapInv latest d' m := by
  intro p hp
  obtain ⟨h1, h2, h3⟩ := h p hp
  exact ⟨h1, fun gr hgr => ⟨(h2 gr hgr).1, le_trans hdd (h2 gr hgr).2⟩, h3⟩

/-- The seed loop establishes the games-map invariant at the latest date. -/
theorem seedGames_inv (latest : Multi.File) :
    Multi.MapInv latest latest.Date (Multi.seedGames latest) := by
  rw [Multi.seedGames]
  have hgen : ∀ rs : List Multi.Record, (∀ r ∈ rs, r ∈ latest.Records) →
      ∀ m, Multi.MapInv latest latest.Date m →
      Multi.MapInv latest latest.Date
        (rs.foldl (fun m record =>
          if record.Rank > 0 then alistInsert m record.ID ⟨[⟨record, latest.Date⟩]⟩ else m) m) := by
    intro rs
    induction rs with
    | nil => intro _ m hm; exact hm
    | cons record rest ih =>
      intro hsub m hm
      rw [List.foldl_cons]
      refine ih (fun r hr => hsub r (List.mem_cons_of_mem _ hr)) _ ?_
      by_cases hrk : record.Rank > 0
      · rw [if_pos hrk]
        intro p hp
        rcases mem_alistInsert hp with rfl | hp2
        · refine ⟨⟨record, hsub record (List.mem_cons_self _ _), hrk, rfl, rfl⟩, ?_, ?_⟩
          · intro gr hgr
            rw [List.mem_singleton] at hgr
            subst hgr
            exact ⟨hrk, le_refl _⟩
          · exact List.chain'_singleton _
        · exact hm p hp2
      · rw [if_neg hrk]
        exact hm
  exact hgen latest.Records (fun r hr => hr) [] (by intro p hp; simp at hp)

/-- Processing one older file whose date is at most the current lower bound
preserves the games-map invariant, at the file's date. -/
theorem addOlderFile_inv {latest : Multi.File} {d : Int} {m : List (String × Multi.Game)}
    (f : Multi.File) (hfd : f.Date ≤ d) (hm : Multi.MapInv latest d m) :
    Multi.MapInv latest f.Date (Multi.addOlderFile m f) := by
  rw [Multi.addOlderFile]
  have hgen : ∀ (rs : List Multi.Record) (m0 : List (String × Multi.Game)),
      Multi.MapInv latest f.Date m0 →
      Multi.MapInv latest f.Date
        (rs.foldl (fun m record =>
          match alistLookup m record.ID with
          | some game =>
            if record.Rank > 0 then
              alistInsert m record.ID ⟨game.Records ++ [⟨record, f.Date⟩]⟩
            else m
          | none => m) m0) := by
    intro rs
    induction rs with
    | nil => intro m0 hm0; exact hm0
    | cons record rest ih =>
      intro m0 hm0
      rw [List.foldl_cons]
      refine ih _ ?_
      rcases hl : alistLookup m0 record.ID with _ | game
      · simpa [hl] using hm0
      · simp only [hl]
        by_cases hrk : record.Rank > 0
        · rw [if_pos hrk]
          intro p hp
          rcases mem_alistInsert hp with rfl | hp2
          · obtain ⟨⟨r, hr, hrrank, hrid, hhead⟩, hall, hchain⟩ :=
              hm0 (record.ID, game) (alistLookup_mem hl)
            refine ⟨⟨r, hr, hrrank, hrid, ?_⟩, ?_, ?_⟩
            · rcases hrecs : game.Records with _ | ⟨hd, tl⟩
              · rw [hrecs] at hhead
                simp at hhead
              · rw [hrecs] at hhead
                simpa using hhead
            · intro gr hgr
              rcases List.mem_append.1 hgr with hgr1 | hgr1
              · exact hall gr hgr1
              · rw [List.mem_singleton] at hgr1
                subst hgr1
                exact ⟨hrk, le_refl _⟩
            · rw [List.chain'_append]
              refine ⟨hchain, List.chain'_singleton _, ?_⟩
              intro x hx y hy
              obtain rfl : (⟨record, f.Date⟩ : Multi.GameRecord) = y := by simpa using hy
              exact (hall x (mem_of_getLast? hx)).2
          · exact hm0 p hp2
        · rw [if_neg hrk]
          exact hm0
  exact hgen f.Records m (mapInv_mono hfd hm)

/-- Folding the older files over a map satisfying the invariant yields a map
satisfying the invariant at some lower bound, provided the file dates are
non-increasing and start at most at the current bound. -/
theorem foldOlderFiles_inv (latest : Multi.File) :
    ∀ (older : List Multi.File) (m : List (String × Multi.Game)) (d : Int),
      Multi.MapInv latest d m →
      (∀ f0 ∈ older.head?, f0.Date ≤ d) →
      List.Chain' (fun a b : Multi.File => b.Date ≤ a.Date) older →
      ∃ d', Multi.MapInv latest d' (older.foldl Multi.addOlderFile m) := by
  intro older
  induction older with
  | nil => intro m d hm _ _; exact ⟨d, hm⟩
  | cons f rest ih =>
    intro m d hm hhead hchain
    rw [List.foldl_cons]
    refine ih _ f.Date (addOlderFile_inv f (hhead f (by simp)) hm) ?_ hchain.tail
    intro f0 hf0
    rcases rest with _ | ⟨f1, rest'⟩
    · simp at hf0
    · obtain rfl : f1 = f0 := by simpa using hf0
      exact (List.chain'_cons.1 hchain).1

/-- C5: given snapshot files listed newest first with non-increasing dates (as
the backward file-discovery loop produces), every identifier in the games map
has a ranked record in the latest file — identifiers unranked there never
become part of any game — and every game that reaches the output stage has
more than one record, only ranked records, a first record drawn from the
latest file carrying the latest date, records ordered newest to oldest, and a
latest users-rated count meeting the configured minimum. -/
theorem C5_multi_snapshot_retention :
    ∀ (latest : Multi.File) (older : List Multi.File) (minRatings : Int),
      List.Chain' (fun a b : Multi.File => b.Date ≤ a.Date) (latest :: older) →
      (∀ p ∈ Multi.buildGamesMap latest older,
        ∃ r ∈ latest.Records, 0 < r.Rank ∧ r.ID = p.1) ∧
      (∀ g ∈ Multi.gamesList latest older minRatings,
        1 < g.Records.length ∧
        (∀ gr ∈ g.Records, 0 < gr.Record.Rank) ∧
        (∃ r ∈ latest.Records, 0 < r.Rank ∧ g.Records.head? = some ⟨r, latest.Date⟩) ∧
        List.Chain' (fun a b : Multi.GameRecord => b.Date ≤ a.Date) g.Records ∧
        minRatings ≤ atoiOr0 (g.Records.getD 0 default).Record.UsersRated) := by
  intro latest older minRatings hchain
  have hhead : ∀ f0 ∈ older.head?, f0.Date ≤ latest.Date := by
    rcases older with _ | ⟨f1, rest⟩
    · intro f0 hf0
      simp at hf0
    · intro f0 hf0
      obtain rfl : f1 = f0 := by simpa using hf0
      exact (List.chain'_cons.1 hchain).1
  obtain ⟨d', hinv⟩ := foldOlderFiles_inv latest older (Multi.seedGames latest) latest.Date
    (seedGames_inv latest) hhead hchain.tail
  rw [← Multi.buildGamesMap] at hinv
  constructor
  · intro p hp
    obtain ⟨⟨r, hr, hrk, hrid, _⟩, _, _⟩ := hinv p hp
    exact ⟨r, hr, hrk, hrid⟩
  · intro g hg
    rw [Multi.gamesList, List.mem_filter, List.mem_map] at hg
    obtain ⟨⟨p, hpm, rfl⟩, hcond⟩ := hg
    obtain ⟨⟨r, hr, hrk, _, hhd⟩, hall, hch⟩ := hinv p hpm
    rw [Bool.and_eq_true, decide_eq_true_eq, decide_eq_true_eq] at hcond
    exact ⟨hcond.1, fun gr hgr => (hall gr hgr).1, ⟨r, hr, hrk, hhd⟩, hch, hcond.2⟩

/-- Witness for C5 on a concrete two-file run with one identifier. -/
theorem C5_multi_snapshot_retention_witness :
    1 < (⟨[⟨⟨"a", "n", "y", 1, "7", 5, "150", "u", "t"⟩, 10⟩,
           ⟨⟨"a", "n", "y", 2, "7", 4, "100", "u", "t"⟩, 3⟩]⟩ : Multi.Game).Records.length ∧
    (∀ gr ∈ (⟨[⟨⟨"a", "n", "y", 1, "7", 5, "150", "u", "t"⟩, 10⟩,
           ⟨⟨"a", "n", "y", 2, "7", 4, "100", "u", "t"⟩, 3⟩]⟩ : Multi.Game).Records,
        0 < gr.Record.Rank) ∧
    (∃ r ∈ (⟨10, [⟨"a", "n", "y", 1, "7", 5, "150", "u", "t"⟩]⟩ : Multi.File).Records,
      0 < r.Rank ∧
        (⟨[⟨⟨"a", "n", "y", 1, "7", 5, "150", "u", "t"⟩, 10⟩,
           ⟨⟨"a", "n", "y", 2, "7", 4, "100", "u", "t"⟩, 3⟩]⟩ : Multi.Game).Records.head? =
          some ⟨r, (⟨10, [⟨"a", "n", "y", 1, "7", 5, "150", "u", "t"⟩]⟩ : Multi.File).Date⟩) ∧
    List.Chain' (fun a b : Multi.GameRecord => b.Date ≤ a.Date)
      (⟨[⟨⟨"a", "n", "y", 1, "7", 5, "150", "u", "t"⟩, 10⟩,
         ⟨⟨"a", "n", "y", 2, "7", 4, "100", "u", "t"⟩, 3⟩]⟩ : Multi.Game).Records ∧
    (100 : Int) ≤ atoiOr0
      ((⟨[⟨⟨"a", "n", "y", 1, "7", 5, "150", "u", "t"⟩, 10⟩,
          ⟨⟨"a", "n", "y", 2, "7", 4, "100", "u", "t"⟩, 3⟩]⟩ : Multi.Game).Records.getD 0
        default).Record.UsersRated :=
  (C5_multi_snapshot_retention
      ⟨10, [⟨"a", "n", "y", 1, "7", 5, "150", "u", "t"⟩]⟩
      [⟨3, [⟨"a", "n", "y", 2, "7", 4, "100", "u", "t"⟩]⟩]
      100 (List.chain'_cons.2 ⟨by decide, List.chain'_singleton _⟩)).2
    ⟨[⟨⟨"a", "n", "y", 1, "7", 5, "150", "u", "t"⟩, 10⟩,
      ⟨⟨"a", "n", "y", 2, "7", 4, "100", "u", "t"⟩, 3⟩]⟩
    (by decide)
